import Mathlib

/-!
Verification of the DarkTodo task-list application core
(state-management and persistence layer of `src/unnamed/part_000`).

The embedding translates the TypeScript source:
* `Todo`, `Filter`, `Theme` are the data types of the source.
* `localStorage` cells are modelled abstractly: a cell is absent, holds a
  string on which `JSON.parse` raises, or holds the serialization of a
  JSON value `j` (every stored string is in exactly one of these classes).
  JSON values are modelled by the inductive `Json`.
* The state-updating callbacks (`addTodo`, `toggleTodo`, `deleteTodo`,
  `clearCompleted`) are written in the source as pure functional updates
  `setTodos(prev => ...)`; they are embedded as the corresponding pure
  functions on the previous snapshot.
-/

namespace DarkTodo

/-- The `Todo` record of the source: `{ id, text, completed, createdAt }`. -/
structure Todo where
  id : String
  text : String
  completed : Bool
  createdAt : String
deriving DecidableEq, Repr

/-- `type Filter = 'all' | 'active' | 'completed'`. -/
inductive Filter where
  | all
  | active
  | completed
deriving DecidableEq, Repr

/-- `type Theme = 'light' | 'dark'`. -/
inductive Theme where
  | light
  | dark
deriving DecidableEq, Repr

/-- JSON values, modelling what `JSON.parse` can return and
`JSON.stringify` can serialize. -/
inductive Json where
  | null
  | bool (b : Bool)
  | num (n : Int)
  | str (s : String)
  | arr (elems : List Json)
  | obj (fields : List (String × Json))
deriving Repr

/-- The JSON object `JSON.stringify` produces for one `Todo`
(field order as declared in the source interface). -/
def encodeTodo (t : Todo) : Json :=
  Json.obj [("id", Json.str t.id), ("text", Json.str t.text),
            ("completed", Json.bool t.completed), ("createdAt", Json.str t.createdAt)]

/-- The JSON array `JSON.stringify` produces for a todo list. -/
def encodeTodos (ts : List Todo) : Json :=
  Json.arr (ts.map encodeTodo)

/-- Decoder for the `Todo` shape of the data model: the partial inverse of
`encodeTodo`, used to state when a JSON value is parseable as a `Todo`.
(The source itself performs no such validation: it casts with `as Todo[]`.) -/
def decodeTodo : Json → Option Todo
  | Json.obj [("id", Json.str i), ("text", Json.str tx),
              ("completed", Json.bool b), ("createdAt", Json.str c)] =>
      some { id := i, text := tx, completed := b, createdAt := c }
  | _ => none

/-- Decode each element of a JSON list as a `Todo`; `none` if any fails. -/
def decodeTodoList : List Json → Option (List Todo)
  | [] => some []
  | j :: rest =>
      match decodeTodo j, decodeTodoList rest with
      | some t, some ts => some (t :: ts)
      | _, _ => none

/-- Decoder for a sequence of `Todo`: the partial inverse of `encodeTodos`.
Used to state when stored content is parseable as a sequence of tasks. -/
def decodeTodos : Json → Option (List Todo)
  | Json.arr es => decodeTodoList es
  | _ => none

/-- One `localStorage` cell, classified by how the source's read path reacts
to it: `absent` — `getItem` returns `null` (or the empty string; both are
falsy); `notJson` — a stored string on which `JSON.parse` raises;
`json j` — a stored string that is the JSON serialization of the value `j`. -/
inductive StoredCell where
  | absent
  | notJson
  | json (j : Json)
deriving Repr

/-- `loadTodos` of the source. Returns the JS value the function returns,
paired with whether the `catch` branch logged a failure:
* `getItem` falsy → `return []`, no log;
* `JSON.parse` raises → caught, logged, `return []`;
* `JSON.parse` succeeds with value `j` → `return JSON.parse(raw) as Todo[]`,
  i.e. `j` itself, unvalidated, no log. -/
def loadTodos : StoredCell → Json × Bool
  | StoredCell.absent => (Json.arr [], false)
  | StoredCell.notJson => (Json.arr [], true)
  | StoredCell.json j => (j, false)

/-- `saveTodos` of the source: `setItem(STORAGE_ITEMS, JSON.stringify(todos))`
inside `try/catch`. `ok` is whether the store accepts the write; on failure
the cell keeps its previous content and the failure is logged (second
component). -/
def saveTodos (todos : List Todo) (ok : Bool) (prev : StoredCell) : StoredCell × Bool :=
  if ok then (StoredCell.json (encodeTodos todos), false) else (prev, true)

/-- The theme `localStorage` cell: `getItem` yields `null` (`absent`), a
string (`value s`), or the read raises (`failure`). -/
inductive ThemeCell where
  | absent
  | value (s : String)
  | failure
deriving Repr

/-- `loadTheme` of the source:
`if (raw === 'dark' || raw === 'light') return raw; return 'light'`,
with the whole read wrapped in `try/catch` returning `'light'` on a raise. -/
def loadTheme : ThemeCell → Theme
  | ThemeCell.absent => Theme.light
  | ThemeCell.failure => Theme.light
  | ThemeCell.value raw =>
      if raw = "dark" then Theme.dark
      else if raw = "light" then Theme.light
      else Theme.light

/-- Model of `String.prototype.trim`: strips leading and trailing
whitespace, computed over the character list. -/
def jsTrim (s : String) : String :=
  ⟨((s.data.dropWhile Char.isWhitespace).reverse.dropWhile Char.isWhitespace).reverse⟩

/-- `addTodo` of the source:
`const text = inputValue.trim(); if (!text) return;`
then prepend `{ id: generateId(), text, completed: false, createdAt: now }`.
The fresh id and the timestamp are passed explicitly. -/
def addTodo (todos : List Todo) (inputValue : String) (freshId : String)
    (now : String) : List Todo :=
  let text := jsTrim inputValue
  if text = "" then todos
  else { id := freshId, text := text, completed := false, createdAt := now } :: todos

/-- `toggleTodo` of the source:
`prev.map(t => t.id === id ? { ...t, completed: !t.completed } : t)`. -/
def toggleTodo (todos : List Todo) (id : String) : List Todo :=
  todos.map fun t => if t.id = id then { t with completed := !t.completed } else t

/-- `deleteTodo` of the source: `prev.filter(t => t.id !== id)`. -/
def deleteTodo (todos : List Todo) (id : String) : List Todo :=
  todos.filter fun t => t.id != id

/-- `clearCompleted` of the source: `prev.filter(t => !t.completed)`. -/
def clearCompleted (todos : List Todo) : List Todo :=
  todos.filter fun t => !t.completed

/-- `filteredTodos` of the source:
`todos.filter(t => { if (filter === 'active') return !t.completed;
if (filter === 'completed') return t.completed; return true })`. -/
def filteredTodos (todos : List Todo) (filter : Filter) : List Todo :=
  todos.filter fun t =>
    match filter with
    | Filter.active => !t.completed
    | Filter.completed => t.completed
    | Filter.all => true

/-- `activeCount` of the source: `todos.filter(t => !t.completed).length`. -/
def activeCount (todos : List Todo) : Nat :=
  (todos.filter fun t => !t.completed).length

/-- `completedCount` of the source: `todos.filter(t => t.completed).length`. -/
def completedCount (todos : List Todo) : Nat :=
  (todos.filter fun t => t.completed).length

/-- A concrete active task, used to instantiate universally quantified
theorems at explicit inputs. -/
def sampleActive : Todo :=
  { id := "a1", text := "Buy groceries", completed := false, createdAt := "t1" }

/-- A concrete completed task, used to instantiate universally quantified
theorems at explicit inputs. -/
def sampleDone : Todo :=
  { id := "b2", text := "Walk the dog", completed := true, createdAt := "t2" }

/-- The task with `id = "a1"` after one toggle, used to instantiate the
frame theorem at an explicit input. -/
def sampleToggled : Todo :=
  { id := "a1", text := "Buy groceries", completed := true, createdAt := "t1" }

/-- Toggling one element twice restores it. -/
theorem toggle_elem_involution (t : Todo) (i : String) :
    (if (if t.id = i then { t with completed := !t.completed } else t).id = i
     then { (if t.id = i then { t with completed := !t.completed } else t) with
            completed := !(if t.id = i then { t with completed := !t.completed }
                           else t).completed }
     else (if t.id = i then { t with completed := !t.completed } else t)) = t := by
  by_cases h : t.id = i
  · subst h
    cases t
    simp
  · simp [h]

/-- C3: for every collection `c` and id `i`,
`toggleTodo (toggleTodo c i) i = c` — toggling the same id twice returns a
collection equal to the original (involution on the `completed` flag). -/
theorem toggleTodo_involution (c : List Todo) (i : String) :
    toggleTodo (toggleTodo c i) i = c := by
  induction c with
  | nil => rfl
  | cons t ts ih =>
      simp only [toggleTodo, List.map_cons] at ih ⊢
      exact congrArg₂ List.cons (toggle_elem_involution t i) ih

/-- C6: `activeCount c + completedCount c = c.length` for every collection. -/
theorem counts_partition (c : List Todo) :
    activeCount c + completedCount c = c.length := by
  induction c with
  | nil => rfl
  | cons t ts ih =>
      simp only [activeCount, completedCount, List.filter_cons] at ih ⊢
      cases h : t.completed <;> simp [h] <;> omega

/-- C4: if no task of `c` has id `i`, both `toggleTodo c i` and
`deleteTodo c i` return `c` unchanged (unmatched id is a silent no-op). -/
theorem unmatched_id_noop (c : List Todo) (i : String)
    (h : ∀ t ∈ c, t.id ≠ i) :
    toggleTodo c i = c ∧ deleteTodo c i = c := by
  induction c with
  | nil => exact ⟨rfl, rfl⟩
  | cons t ts ih =>
      have ht : t.id ≠ i := h t (List.mem_cons_self t ts)
      have hts : ∀ x ∈ ts, x.id ≠ i := fun x hx => h x (List.mem_cons_of_mem t hx)
      obtain ⟨ih1, ih2⟩ := ih hts
      refine ⟨?_, ?_⟩
      · simpa [toggleTodo, ht] using ih1
      · simpa [deleteTodo, List.filter_cons, ht] using ih2

/-- Witness for C4 at a concrete collection and unmatched id. -/
theorem unmatched_id_noop_witness :
    toggleTodo [sampleActive] "zzz" = [sampleActive] ∧
    deleteTodo [sampleActive] "zzz" = [sampleActive] :=
  unmatched_id_noop [sampleActive] "zzz" (by decide)

/-- C2: `addTodo` trims the input; when the trimmed text is empty the
collection is returned unchanged; otherwise the result is the new task —
fresh id, trimmed text, `completed = false`, `createdAt = now` — prepended
to the original collection, so its length is `c.length + 1`. -/
theorem addTodo_spec (c : List Todo) (raw fid now : String) :
    (jsTrim raw = "" → addTodo c raw fid now = c) ∧
    (jsTrim raw ≠ "" →
      addTodo c raw fid now =
        { id := fid, text := jsTrim raw, completed := false, createdAt := now } :: c ∧
      (addTodo c raw fid now).length = c.length + 1) := by
  constructor
  · intro h
    simp [addTodo, h]
  · intro h
    refine ⟨?_, ?_⟩ <;> simp [addTodo, h]

/-- Witness for C2: adding `"  Buy groceries  "` to the empty collection. -/
theorem addTodo_spec_witness :
    addTodo [] "  Buy groceries  " "a1" "t1" =
      [{ id := "a1", text := "Buy groceries", completed := false, createdAt := "t1" }] ∧
    (addTodo [] "  Buy groceries  " "a1" "t1").length = 1 :=
  (addTodo_spec [] "  Buy groceries  " "a1" "t1").2 (by decide)

/-- C5: filtering with `all` returns the collection unchanged; `active` and
`completed` return order-preserving subsequences holding exactly the tasks
with `completed = false` resp. `completed = true`; every task of the
collection lies in exactly one of the two filtered results. -/
theorem filteredTodos_spec (c : List Todo) :
    filteredTodos c Filter.all = c ∧
    (filteredTodos c Filter.active).Sublist c ∧
    (filteredTodos c Filter.completed).Sublist c ∧
    (∀ t, t ∈ filteredTodos c Filter.active ↔ t ∈ c ∧ t.completed = false) ∧
    (∀ t, t ∈ filteredTodos c Filter.completed ↔ t ∈ c ∧ t.completed = true) ∧
    (∀ t ∈ c, (t ∈ filteredTodos c Filter.active ↔
               t ∉ filteredTodos c Filter.completed)) := by
  refine ⟨?_, List.filter_sublist c, List.filter_sublist c, ?_, ?_, ?_⟩
  · simp [filteredTodos]
  · intro t
    simp [filteredTodos, List.mem_filter]
  · intro t
    simp [filteredTodos, List.mem_filter]
  · intro t htc
    simp only [filteredTodos, List.mem_filter]
    cases h : t.completed <;> simp [htc, h]

/-- Witness for C5 at a concrete two-element collection. -/
theorem filteredTodos_spec_witness :
    filteredTodos [sampleActive, sampleDone] Filter.all = [sampleActive, sampleDone] ∧
    (sampleActive ∈ filteredTodos [sampleActive, sampleDone] Filter.active ↔
     sampleActive ∉ filteredTodos [sampleActive, sampleDone] Filter.completed) :=
  ⟨(filteredTodos_spec [sampleActive, sampleDone]).1,
   (filteredTodos_spec [sampleActive, sampleDone]).2.2.2.2.2 sampleActive (by decide)⟩

/-- C7: `loadTheme` yields `dark` for the stored literal `"dark"`, `light`
for `"light"`, and `light` for every other stored value, for an absent key
and for a failing read. -/
theorem loadTheme_spec :
    loadTheme (ThemeCell.value "dark") = Theme.dark ∧
    loadTheme (ThemeCell.value "light") = Theme.light ∧
    loadTheme ThemeCell.absent = Theme.light ∧
    loadTheme ThemeCell.failure = Theme.light ∧
    ∀ s : String, s ≠ "dark" → s ≠ "light" →
      loadTheme (ThemeCell.value s) = Theme.light := by
  refine ⟨rfl, rfl, rfl, rfl, fun s h1 h2 => ?_⟩
  simp [loadTheme, h1, h2]

/-- Witness for C7: the stored literal `"purple"` falls back to `light`. -/
theorem loadTheme_spec_witness :
    loadTheme (ThemeCell.value "purple") = Theme.light :=
  loadTheme_spec.2.2.2.2 "purple" (by decide) (by decide)

/-- C8: `clearCompleted` keeps, in their original order, exactly the tasks
with `completed = false`, removes every completed task, and leaves the
collection unchanged when no task is completed. -/
theorem clearCompleted_spec (c : List Todo) :
    (∀ t ∈ clearCompleted c, t.completed = false) ∧
    (clearCompleted c).Sublist c ∧
    (∀ t ∈ c, t.completed = false → t ∈ clearCompleted c) ∧
    (∀ t ∈ c, t.completed = true → t ∉ clearCompleted c) ∧
    ((∀ t ∈ c, t.completed = false) → clearCompleted c = c) := by
  refine ⟨?_, List.filter_sublist c, ?_, ?_, ?_⟩
  · intro t ht
    simp only [clearCompleted, List.mem_filter] at ht
    simpa using ht.2
  · intro t htc h
    simp [clearCompleted, List.mem_filter, htc, h]
  · intro t htc h hmem
    simp only [clearCompleted, List.mem_filter] at hmem
    simp [h] at hmem
  · intro h
    induction c with
    | nil => rfl
    | cons t ts ih =>
        have ht := h t (List.mem_cons_self t ts)
        have hts := fun x hx => h x (List.mem_cons_of_mem t hx)
        simp only [clearCompleted, List.filter_cons, ht] at ih ⊢
        simpa using ih hts

/-- Witness for C8: a fully active collection passes through unchanged. -/
theorem clearCompleted_spec_witness :
    clearCompleted [sampleActive] = [sampleActive] :=
  (clearCompleted_spec [sampleActive]).2.2.2.2 (by decide)

/-- C10: `toggleTodo` preserves length and positions; at every position the
task keeps its `id`, `text` and `createdAt`; a task whose id differs from
the toggled id is unchanged in all fields, and the task whose id matches
has exactly its `completed` flag flipped. -/
theorem toggleTodo_frame (l : List Todo) (i : String) :
    (toggleTodo l i).length = l.length ∧
    ∀ (k : Nat) (t t' : Todo), l[k]? = some t → (toggleTodo l i)[k]? = some t' →
      t'.id = t.id ∧ t'.text = t.text ∧ t'.createdAt = t.createdAt ∧
      (t.id ≠ i → t' = t) ∧
      (t.id = i → t'.completed = !t.completed) := by
  constructor
  · simp [toggleTodo]
  · intro k t t' hc ht
    rw [toggleTodo, List.getElem?_map, hc, Option.map_some'] at ht
    have ht' : t' = if t.id = i then { t with completed := !t.completed } else t :=
      (Option.some.injEq _ _ ▸ ht).symm
    subst ht'
    by_cases h : t.id = i <;> simp [h]

/-- Witness for C10 at position 0 of a concrete collection, toggling the
id of the task there. -/
theorem toggleTodo_frame_witness :
    sampleToggled.id = sampleActive.id ∧
    sampleToggled.text = sampleActive.text ∧
    sampleToggled.createdAt = sampleActive.createdAt ∧
    (sampleActive.id ≠ "a1" → sampleToggled = sampleActive) ∧
    (sampleActive.id = "a1" → sampleToggled.completed = !sampleActive.completed) :=
  (toggleTodo_frame [sampleActive, sampleDone] "a1").2 0 sampleActive sampleToggled
    (by decide) (by decide)

/-- C1 counterexample: the stored content `42` is valid JSON, hence
`JSON.parse` does not raise, but it is not parseable as a sequence of
`Todo`; `loadTodos` neither logs nor falls back to the empty sequence — it
returns the value `42` as-is, which is not the empty array. -/
theorem loadTodos_no_validation :
    decodeTodos (Json.num 42) = none ∧
    loadTodos (StoredCell.json (Json.num 42)) = (Json.num 42, false) ∧
    Json.num 42 ≠ encodeTodos [] := by
  refine ⟨rfl, rfl, ?_⟩
  intro h
  exact Json.noConfusion h

/-- C1 (amended): `loadTodos` is total — for an absent (or empty) record it
returns the empty array without logging; for content on which `JSON.parse`
raises it logs and returns the empty array; content that parses as a JSON
value is returned as-is, without validation against the `Todo` shape. -/
theorem loadTodos_total :
    loadTodos StoredCell.absent = (Json.arr [], false) ∧
    loadTodos StoredCell.notJson = (Json.arr [], true) ∧
    ∀ j : Json, loadTodos (StoredCell.json j) = (j, false) :=
  ⟨rfl, rfl, fun _ => rfl⟩

/-- Decoding inverts encoding for a single task. -/
theorem decodeTodo_encodeTodo (t : Todo) : decodeTodo (encodeTodo t) = some t := rfl

/-- Decoding inverts encoding elementwise on a task list. -/
theorem decodeTodoList_map_encode (ts : List Todo) :
    decodeTodoList (ts.map encodeTodo) = some ts := by
  induction ts with
  | nil => rfl
  | cons t ts ih => simp [decodeTodoList, decodeTodo_encodeTodo, ih]

/-- Decoding inverts encoding for a whole collection. -/
theorem decodeTodos_encodeTodos (ts : List Todo) :
    decodeTodos (encodeTodos ts) = some ts := by
  simp [decodeTodos, encodeTodos, decodeTodoList_map_encode]

/-- C9: with a functioning store, `loadTodos` after `saveTodos c` yields
exactly the serialization of `c`, which decodes back to `c` — the
round trip is the identity up to representation. -/
theorem save_load_round_trip (c : List Todo) (prev : StoredCell) (ok : Bool)
    (h : ok = true) :
    (loadTodos (saveTodos c ok prev).1).1 = encodeTodos c ∧
    decodeTodos (loadTodos (saveTodos c ok prev).1).1 = some c := by
  subst h
  exact ⟨rfl, decodeTodos_encodeTodos c⟩

/-- Witness for C9 at a concrete one-task collection. -/
theorem save_load_round_trip_witness :
    (loadTodos (saveTodos [sampleActive] true StoredCell.absent).1).1 =
      encodeTodos [sampleActive] ∧
    decodeTodos (loadTodos (saveTodos [sampleActive] true StoredCell.absent).1).1 =
      some [sampleActive] :=
  save_load_round_trip [sampleActive] StoredCell.absent true rfl

end DarkTodo
